import Mathlib

/-!
A shallow embedding of `Sub_Auto.py`, a subdomain-reconnaissance script that
orchestrates external command-line tools (`subfinder`, `amass`, `httpx`,
`eyewitness`).  External processes are modelled by an environment value that
fixes, for each invocation the script performs, the raw outcome of the
`subprocess.run` call (normal completion with stdout/stderr/exit code, a
`FileNotFoundError` at launch, or another exception) together with the lines
the tool itself writes to its output file.  The file system is an association
list from file names to their lines.  Python sets of strings are `Finset
String`; iteration order over a set, unspecified in Python, is determinised
as the lexicographically sorted order.
-/

/-- File system: file names mapped to their content, a list of lines
(each line stored without its trailing newline). -/
def FS : Type := List (String × List String)

def fsLookup : FS → String → Option (List String)
  | [], _ => none
  | (n, ls) :: fs, name => if n = name then some ls else fsLookup fs name

def fsRemove : FS → String → FS
  | [], _ => []
  | (n, ls) :: fs, name =>
      if n = name then fsRemove fs name else (n, ls) :: fsRemove fs name

/-- Overwrite (or create) a file. -/
def fsWrite (fs : FS) (name : String) (ls : List String) : FS :=
  (name, ls) :: fsRemove fs name

/-- Python's `str.strip()`: drop whitespace from both ends. -/
def pyStrip (s : String) : String :=
  String.mk
    (((s.data.dropWhile Char.isWhitespace).reverse.dropWhile
        Char.isWhitespace).reverse)

/-- Python's `str.lower()`. -/
def pyLower (s : String) : String :=
  String.mk (s.data.map Char.toLower)

def splitOnChar (sep : Char) : List Char → List (List Char)
  | [] => [[]]
  | c :: t =>
      match splitOnChar sep t, c == sep with
      | r, true => [] :: r
      | [], false => [[c]]
      | h :: r, false => (c :: h) :: r

/-- Python's `str.splitlines()` (newline-separated; a trailing empty piece
is harmless here because callers drop whitespace-only lines). -/
def pySplitLines (s : String) : List String :=
  (splitOnChar (Char.ofNat 10) s.data).map String.mk

/-- Function `containsSub hay pat` models Python's substring test `pat in hay`
on lists of characters. -/
def containsSub : List Char → List Char → Bool
  | [], pat => pat.isEmpty
  | c :: t, pat => pat.isPrefixOf (c :: t) || containsSub t pat

/-- Python's `"not found" in s.lower()`. -/
def hasNotFound (s : String) : Bool :=
  containsSub (pyLower s).data "not found".data

/-- Raw outcome of a `subprocess.run(command, shell=True, capture_output=True,
text=True, check=False)` call, as the environment determines it:
normal completion, a `FileNotFoundError` raised at launch, or any other
exception (carrying its string rendering). -/
inductive RawExec where
  | ok (stdout stderr : String) (returncode : Int)
  | fileNotFound
  | otherError (msg : String)

/-- Model of `run_command` from `Sub_Auto.py`: returns `(stdout, stderr, returncode)`.
On the "not found" diagnostic branch stdout is replaced by `None`;
a `FileNotFoundError` yields `(None, "FileNotFoundError", 127)`; any other
exception yields `(None, str(e), 1)`. -/
def run_command : RawExec → Option String × String × Int
  | RawExec.ok out err rc =>
      if rc ≠ 0 ∧ hasNotFound err = true then (none, err, rc)
      else (some out, err, rc)
  | RawExec.fileNotFound => (none, "FileNotFoundError", 127)
  | RawExec.otherError msg => (none, msg, 1)

/-- The file `{target_domain}_subfinder.txt`. -/
def subName (d : String) : String := d ++ "_subfinder.txt"

/-- The file `{target_domain}_amass.txt`. -/
def amName (d : String) : String := d ++ "_amass.txt"

/-- The file `{target_domain}_all_unique_subdomains.txt`. -/
def tempName (d : String) : String := d ++ "_all_unique_subdomains.txt"

/-- The file `{target_domain}_subdomains.txt`. -/
def liveName (d : String) : String := d ++ "_subdomains.txt"

lemma fsLookup_fsRemove_self (fs : FS) (n : String) :
    fsLookup (fsRemove fs n) n = none := by
  induction fs with
  | nil => rfl
  | cons p fs ih =>
    obtain ⟨m, ls⟩ := p
    by_cases h : m = n
    · simpa [fsRemove, h] using ih
    · simpa [fsRemove, fsLookup, h] using ih

lemma fsLookup_fsRemove_ne (fs : FS) (n m : String) (h : n ≠ m) :
    fsLookup (fsRemove fs n) m = fsLookup fs m := by
  induction fs with
  | nil => rfl
  | cons p fs ih =>
    obtain ⟨k, ls⟩ := p
    by_cases hk : k = n
    · subst hk
      simpa [fsRemove, fsLookup, h] using ih
    · simp [fsRemove, fsLookup, hk]
      by_cases hm : k = m
      · simp [hm]
      · simpa [hm] using ih

lemma fsLookup_fsWrite_self (fs : FS) (n : String) (ls : List String) :
    fsLookup (fsWrite fs n ls) n = some ls := by
  simp [fsWrite, fsLookup]

lemma fsLookup_fsWrite_ne (fs : FS) (n m : String) (ls : List String)
    (h : n ≠ m) : fsLookup (fsWrite fs n ls) m = fsLookup fs m := by
  simp [fsWrite, fsLookup, h, fsLookup_fsRemove_ne fs n m h]

lemma append_ne_of_length_ne (d s1 s2 : String) (h : s1.length ≠ s2.length) :
    d ++ s1 ≠ d ++ s2 := by
  intro he
  apply h
  have h2 := congrArg String.length he
  rw [String.length_append, String.length_append] at h2
  omega

lemma subName_ne_amName (d : String) : subName d ≠ amName d :=
  append_ne_of_length_ne d _ _ (by decide)

lemma subName_ne_tempName (d : String) : subName d ≠ tempName d :=
  append_ne_of_length_ne d _ _ (by decide)

lemma amName_ne_tempName (d : String) : amName d ≠ tempName d :=
  append_ne_of_length_ne d _ _ (by decide)

lemma subName_ne_liveName (d : String) : subName d ≠ liveName d :=
  append_ne_of_length_ne d _ _ (by decide)

lemma amName_ne_liveName (d : String) : amName d ≠ liveName d :=
  append_ne_of_length_ne d _ _ (by decide)

lemma tempName_ne_liveName (d : String) : tempName d ≠ liveName d :=
  append_ne_of_length_ne d _ _ (by decide)

/-- One external-tool invocation of the initial discovery phase: the raw
outcome of the `subprocess.run` call, plus the lines the tool itself wrote to
its `-o` output file (`none` if it left the file untouched). -/
structure ToolRun where
  raw : RawExec
  fileWrite : Option (List String)

/-- The external world a `find_subdomains` run interacts with: the two
initial tool invocations, the per-target recursive invocations, and the
`httpx` probe (with the lines it writes to the live-subdomains file, `none`
if it writes nothing). -/
structure Env where
  subfinder : ToolRun
  amass : ToolRun
  recSubfinder : String → RawExec
  recAmass : String → RawExec
  httpx : RawExec
  httpxWrite : Option (List String)

def applyWrite (fs : FS) (name : String) : Option (List String) → FS
  | none => fs
  | some ls => fsWrite fs name ls

/-- Model of `for line in f: unique_subdomains.add(line.strip())`. -/
def addLines (s : Finset String) (ls : List String) : Finset String :=
  ls.foldl (fun acc l => insert (pyStrip l) acc) s

/-- One iteration of the initial-discovery loop of `find_subdomains`
(lines 46–60): apply the tool's file side effect, call `run_command`, and on
`returncode == 0 and os.path.exists(output_file)` fold the file's stripped
lines into the set; otherwise leave the set alone and report whether the
`"not found" in stderr.lower()` abort condition fired.
Returns (set, file system, abort flag). -/
def initialTool (fs : FS) (s : Finset String) (outFile : String)
    (tr : ToolRun) : Finset String × FS × Bool :=
  let fs1 := applyWrite fs outFile tr.fileWrite
  let r := run_command tr.raw
  if r.2.2 = 0 ∧ (fsLookup fs1 outFile).isSome = true then
    (addLines s ((fsLookup fs1 outFile).getD []), fs1, false)
  else
    (s, fs1, hasNotFound r.2.1)

/-- Step 1 of `find_subdomains` (lines 39–63): run subfinder then amass,
aborting (`return None`) as soon as a tool fails with `"not found"` in its
captured stderr; on completion add the target domain itself to the set. -/
def initialPhase (target : String) (env : Env) (fs : FS) :
    FS × Option (Finset String) :=
  let r1 := initialTool fs ∅ (subName target) env.subfinder
  if r1.2.2 = true then (r1.2.1, none)
  else
    let r2 := initialTool r1.2.1 r1.1 (amName target) env.amass
    if r2.2.2 = true then (r2.2.1, none)
    else (r2.2.1, some (insert target r2.1))

/-- Lines one recursive tool invocation contributes (lines 85–95): only when
`returncode == 0 and stdout` (stdout non-`None` and non-empty), the stripped
non-blank lines of stdout. -/
def toolRecLines (raw : RawExec) : Finset String :=
  match run_command raw with
  | (some out, _, rc) =>
      if rc = 0 ∧ out ≠ "" then
        (((pySplitLines out).map pyStrip).filter
          (fun l => decide (l ≠ ""))).toFinset
      else ∅
  | (none, _, _) => ∅

/-- Whether a recursive invocation passed the
`returncode == 0 and stdout` test. -/
def recSucceeded (raw : RawExec) : Bool :=
  match run_command raw with
  | (some out, _, rc) => decide (rc = 0 ∧ out ≠ "")
  | (none, _, _) => false

/-- What one recursion target contributes to `newly_found_subdomains`. -/
def recContribution (env : Env) (sub : String) : Finset String :=
  toolRecLines (env.recSubfinder sub) ∪ toolRecLines (env.recAmass sub)

/-- One iteration of the recursive-expansion loop (lines 73–96): the main
domain is skipped; any other member has both tools run against it and their
lines folded into the newly-found set.  The second component records the
hosts the tools were actually invoked against. -/
def expansionStep (target : String) (env : Env)
    (acc : Finset String × List String) (sub : String) :
    Finset String × List String :=
  if sub = target then acc
  else (acc.1 ∪ recContribution env sub, acc.2 ++ [sub])

/-- Step 2 of `find_subdomains` (lines 67–96): iterate over a snapshot of
the current set (Python set order determinised as sorted order), producing
`newly_found_subdomains` and the list of hosts invoked against. -/
def expansionRun (target : String) (env : Env) (s : Finset String) :
    Finset String × List String :=
  (s.sort (· ≤ ·)).foldl (expansionStep target env) (∅, [])

/-- Model of `unique_subdomains.update(newly_found_subdomains)` (line 99). -/
def postExpansionSet (target : String) (env : Env) (s : Finset String) :
    Finset String :=
  s ∪ (expansionRun target env s).1

/-- The lines written to `{target}_all_unique_subdomains.txt`
(lines 102–105): the set sorted lexicographically, one member per line. -/
def fullSetLines (s : Finset String) : List String :=
  s.sort (· ≤ ·)

/-- The file system right after the probe ran (lines 102–112): the full set
written to the temporary file, then `httpx`'s own write (if any) to the
live-subdomains file. -/
def probeFS (target : String) (env : Env) (fs : FS) (s : Finset String) :
    FS :=
  applyWrite (fsWrite fs (tempName target) (fullSetLines s))
    (liveName target) env.httpxWrite

/-- The `returncode == 0 and os.path.exists(live_subdomains_file)` test of
line 114. -/
def probeSuccess (target : String) (env : Env) (fs3 : FS) : Bool :=
  decide ((run_command env.httpx).2.2 = 0) &&
    (fsLookup fs3 (liveName target)).isSome

/-- The cleanup of lines 117–121 and 130–134: remove the two per-tool files
and the temporary full-set file (removal of a missing file is a no-op). -/
def cleanupFS (target : String) (fs : FS) : FS :=
  fsRemove (fsRemove (fsRemove fs (subName target)) (amName target))
    (tempName target)

/-- Step 3 of `find_subdomains` (lines 107–135): write the full set, run the
probe, and on success return the live file's path; on failure return `None`.
Both branches perform the same cleanup of intermediates. -/
def probePhase (target : String) (env : Env) (fs : FS) (s : Finset String) :
    FS × Option String :=
  let fs3 := probeFS target env fs s
  if probeSuccess target env fs3 = true then
    (cleanupFS target fs3, some (liveName target))
  else
    (cleanupFS target fs3, none)

/-- Model of `find_subdomains` (lines 30–135), composed from its three steps. -/
def find_subdomains (target : String) (env : Env) (fs : FS) :
    FS × Option String :=
  match initialPhase target env fs with
  | (fs1, none) => (fs1, none)
  | (fs1, some s0) => probePhase target env fs1 (postExpansionSet target env s0)

/-- Outcome of `screenshot_subdomains`: either the step stopped because the
input file was missing, or `eyewitness` was invoked against `path` and
exited with `rc`. -/
inductive ScreenshotResult where
  | missingInput (path : String)
  | ran (path : String) (rc : Int)
deriving DecidableEq

/-- Model of `input_file = input(...).strip(); if not input_file: input_file =
default_input_file` (lines 141–144). -/
def resolvedInput (target userInput : String) : String :=
  if pyStrip userInput = "" then liveName target else pyStrip userInput

/-- Model of `screenshot_subdomains` (lines 137–162): if the resolved input file does
not exist, report the error and return without invoking the tool; otherwise
run `eyewitness` via `run_command`. -/
def screenshot_subdomains (target userInput : String) (fs : FS)
    (scrEnv : RawExec) : ScreenshotResult :=
  let inp := resolvedInput target userInput
  if (fsLookup fs inp).isSome = true then
    ScreenshotResult.ran inp (run_command scrEnv).2.2
  else ScreenshotResult.missingInput inp

/-- Observable events of one menu-loop session. -/
inductive Event where
  | ranFind (ret : Option String)
  | ranScreenshot (r : ScreenshotResult)
  | invalid (choice : String)
  | exited
deriving DecidableEq

/-- The `while True` menu loop of `main` (lines 175–196), driven by the
list of remaining console inputs (an exhausted input list ends the session).
Choice `2` consumes one further input, the screenshot file path. -/
def menuLoop (target : String) (env : Env) (scrEnv : RawExec) :
    List String → FS → List Event × FS
  | [], fs => ([], fs)
  | c :: rest, fs =>
    if pyStrip c = "1" then
      let r := find_subdomains target env fs
      let cont := menuLoop target env scrEnv rest r.1
      (Event.ranFind r.2 :: cont.1, cont.2)
    else if pyStrip c = "2" then
      match rest with
      | [] => ([], fs)
      | p :: rest2 =>
        let r := screenshot_subdomains target p fs scrEnv
        let cont := menuLoop target env scrEnv rest2 fs
        (Event.ranScreenshot r :: cont.1, cont.2)
    else if pyStrip c = "3" then ([Event.exited], fs)
    else
      let cont := menuLoop target env scrEnv rest fs
      (Event.invalid (pyStrip c) :: cont.1, cont.2)

/-- Python's `main` (lines 164–196; renamed, since `main` is reserved):
the first input is the target domain; an empty (stripped) domain exits
immediately, otherwise the menu loop starts. -/
def mainProg (inputs : List String) (env : Env) (scrEnv : RawExec) (fs : FS) :
    List Event × FS :=
  match inputs with
  | [] => ([], fs)
  | d :: rest =>
    if pyStrip d = "" then ([], fs)
    else menuLoop (pyStrip d) env scrEnv rest fs

/-! ## Helper lemmas -/

lemma addLines_mem (ls : List String) (s : Finset String) (x : String) :
    x ∈ addLines s ls ↔ x ∈ s ∨ x ∈ ls.map pyStrip := by
  induction ls generalizing s with
  | nil => simp [addLines]
  | cons a t ih =>
    show x ∈ addLines (insert (pyStrip a) s) t ↔ _
    rw [ih]
    simp [Finset.mem_insert]
    tauto

lemma addLines_eq (s : Finset String) (ls : List String) :
    addLines s ls = s ∪ (ls.map pyStrip).toFinset := by
  ext x
  rw [addLines_mem]
  simp

lemma expansion_foldl_snd (target : String) (env : Env) (l : List String) :
    ∀ acc : Finset String × List String,
      (l.foldl (expansionStep target env) acc).2 =
        acc.2 ++ l.filter (fun x => decide (x ≠ target)) := by
  induction l with
  | nil => intro acc; simp
  | cons a t ih =>
    intro acc
    rw [List.foldl_cons]
    by_cases h : a = target
    · rw [ih]
      simp [expansionStep, h, List.filter_cons]
    · rw [ih]
      simp [expansionStep, h, List.filter_cons]

lemma expansionRun_snd (target : String) (env : Env) (s : Finset String) :
    (expansionRun target env s).2 =
      (s.sort (· ≤ ·)).filter (fun x => decide (x ≠ target)) := by
  rw [expansionRun, expansion_foldl_snd]
  simp

/-! ## Claims -/

/-- C1: after the initial discovery phase of `find_subdomains`, when both
tools ran successfully and wrote their output files (`L1` resp. `L2`), the
subdomain set is exactly the stripped, deduplicated union of the two files'
lines with the target domain inserted unconditionally. -/
theorem c1_initial_union (target : String) (env : Env) (fs : FS)
    (L1 L2 : List String)
    (h1 : (run_command env.subfinder.raw).2.2 = 0)
    (h2 : env.subfinder.fileWrite = some L1)
    (h3 : (run_command env.amass.raw).2.2 = 0)
    (h4 : env.amass.fileWrite = some L2) :
    (initialPhase target env fs).2 =
      some (insert target
        ((L1.map pyStrip).toFinset ∪ (L2.map pyStrip).toFinset)) := by
  rw [initialPhase, initialTool, initialTool, h2, h4]
  simp only [applyWrite, h1, h3, fsLookup_fsWrite_self, Option.isSome_some,
    Option.getD_some, and_self, if_true, true_and]
  norm_num
  rw [addLines_eq, addLines_eq]
  simp

lemma initialTool_fs (fs : FS) (s : Finset String) (f : String)
    (tr : ToolRun) :
    (initialTool fs s f tr).2.1 = applyWrite fs f tr.fileWrite := by
  rw [initialTool]
  split <;> rfl

lemma applyWrite_lookup_ne (fs : FS) (f : String) (w : Option (List String))
    (m : String) (h : f ≠ m) :
    fsLookup (applyWrite fs f w) m = fsLookup fs m := by
  cases w with
  | none => rfl
  | some ls => exact fsLookup_fsWrite_ne fs f m ls h

def envC1 : Env :=
  { subfinder := ⟨RawExec.ok "" "" 0, some ["a.example.com", "b.example.com"]⟩
    amass := ⟨RawExec.ok "" "" 0, some ["b.example.com", "example.com"]⟩
    recSubfinder := fun _ => RawExec.ok "" "" 0
    recAmass := fun _ => RawExec.ok "" "" 0
    httpx := RawExec.ok "" "" 0
    httpxWrite := none }

/-- Witness for C1: the spec's own example.  Subfinder reports
`a.example.com, b.example.com`, amass reports `b.example.com, example.com`,
and the post-initial-union set is exactly those three members. -/
theorem c1_initial_union_witness :
    (initialPhase "example.com" envC1 []).2 =
      some (insert "example.com"
        (((["a.example.com", "b.example.com"].map pyStrip).toFinset) ∪
          ((["b.example.com", "example.com"].map pyStrip).toFinset))) ∧
    ((initialPhase "example.com" envC1 []).2.getD ∅).card = 3 :=
  ⟨c1_initial_union "example.com" envC1 []
      ["a.example.com", "b.example.com"] ["b.example.com", "example.com"]
      (by decide) rfl (by decide) rfl,
    by decide⟩

def envC2cx : Env :=
  { subfinder := ⟨RawExec.fileNotFound, none⟩
    amass := ⟨RawExec.ok "" "" 0, some ["b.example.com"]⟩
    recSubfinder := fun _ => RawExec.ok "" "" 0
    recAmass := fun _ => RawExec.ok "" "" 0
    httpx := RawExec.ok "" "" 0
    httpxWrite := some ["https://b.example.com"] }

/-- C2 counterexample: subfinder's binary is absent and its launch fails
with `FileNotFoundError` — the claimed "binary not found" condition detected
by a process-launch failure — yet `find_subdomains` does not abort: the
sentinel stderr `"FileNotFoundError"`, lowercased, does not contain the
substring `"not found"`, so the run proceeds, returns a result, and the
live-subdomains file exists afterwards. -/
theorem c2_launch_failure_counterexample :
    (find_subdomains "example.com" envC2cx []).2 =
      some "example.com_subdomains.txt" ∧
    fsLookup (find_subdomains "example.com" envC2cx []).1
        "example.com_subdomains.txt" =
      some ["https://b.example.com"] :=
  ⟨by decide, by decide⟩

/-- C2 amended: the Discovery Pipeline aborts — returning no result and
leaving the live-subdomains path untouched — exactly when a failed tool's
captured stderr contains the substring `"not found"` (case-insensitively);
a pure process-launch failure produces the sentinel stderr
`"FileNotFoundError"`, which does not contain that substring, so it does
not trigger the abort. -/
theorem c2_abort_on_not_found (target : String) (env : Env) (fs : FS)
    (h : (initialTool fs ∅ (subName target) env.subfinder).2.2 = true ∨
      ((initialTool fs ∅ (subName target) env.subfinder).2.2 = false ∧
        (initialTool (initialTool fs ∅ (subName target) env.subfinder).2.1
          (initialTool fs ∅ (subName target) env.subfinder).1
          (amName target) env.amass).2.2 = true)) :
    (find_subdomains target env fs).2 = none ∧
    fsLookup (find_subdomains target env fs).1 (liveName target) =
      fsLookup fs (liveName target) ∧
    hasNotFound (run_command RawExec.fileNotFound).2.1 = false := by
  rcases h with h | ⟨h1, h2⟩
  · have hip : initialPhase target env fs =
        ((initialTool fs ∅ (subName target) env.subfinder).2.1, none) := by
      rw [initialPhase]
      simp only [h, if_true]
    have hfind : find_subdomains target env fs =
        ((initialTool fs ∅ (subName target) env.subfinder).2.1, none) := by
      rw [find_subdomains, hip]
    refine ⟨by rw [hfind], ?_, by decide⟩
    rw [hfind, initialTool_fs]
    exact applyWrite_lookup_ne fs _ _ _ (subName_ne_liveName target)
  · have hip : initialPhase target env fs =
        ((initialTool (initialTool fs ∅ (subName target) env.subfinder).2.1
          (initialTool fs ∅ (subName target) env.subfinder).1
          (amName target) env.amass).2.1, none) := by
      rw [initialPhase]
      simp only [h1, h2, Bool.false_eq_true, if_false, if_true]
    have hfind : find_subdomains target env fs =
        ((initialTool (initialTool fs ∅ (subName target) env.subfinder).2.1
          (initialTool fs ∅ (subName target) env.subfinder).1
          (amName target) env.amass).2.1, none) := by
      rw [find_subdomains, hip]
    refine ⟨by rw [hfind], ?_, by decide⟩
    rw [hfind, initialTool_fs, initialTool_fs]
    rw [applyWrite_lookup_ne _ _ _ _ (amName_ne_liveName target)]
    exact applyWrite_lookup_ne fs _ _ _ (subName_ne_liveName target)

def envC2w : Env :=
  { subfinder := ⟨RawExec.ok "" "sh: 1: subfinder: not found" 127, none⟩
    amass := ⟨RawExec.ok "" "" 0, some ["b.example.com"]⟩
    recSubfinder := fun _ => RawExec.ok "" "" 0
    recAmass := fun _ => RawExec.ok "" "" 0
    httpx := RawExec.ok "" "" 0
    httpxWrite := some ["https://b.example.com"] }

/-- Witness for the amended C2: the shell reports
`sh: 1: subfinder: not found` with exit code 127, and the pipeline aborts
with no result and no live-subdomains file. -/
theorem c2_abort_on_not_found_witness :
    (find_subdomains "example.com" envC2w []).2 = none ∧
    fsLookup (find_subdomains "example.com" envC2w []).1
        (liveName "example.com") =
      fsLookup ([] : FS) (liveName "example.com") ∧
    hasNotFound (run_command RawExec.fileNotFound).2.1 = false :=
  c2_abort_on_not_found "example.com" envC2w [] (Or.inl (by decide))

def envC3 : Env :=
  { subfinder := ⟨RawExec.ok "" "" 0, some ["a.example.com", " "]⟩
    amass := ⟨RawExec.ok "" "" 0, some []⟩
    recSubfinder := fun _ => RawExec.ok "" "" 0
    recAmass := fun _ => RawExec.ok "" "" 0
    httpx := RawExec.ok "" "" 0
    httpxWrite := none }

/-- C3 counterexample: a whitespace-only line in subfinder's output file is
stripped to the empty string and kept in the set, so the content written to
`D_all_unique_subdomains.txt` in this run contains a blank line. -/
theorem c3_blank_line_counterexample :
    "" ∈ fullSetLines (postExpansionSet "example.com" envC3
      ((initialPhase "example.com" envC3 []).2.getD ∅)) := by
  rw [fullSetLines, Finset.mem_sort, postExpansionSet]
  apply Finset.mem_union_left
  decide

/-- C3 amended: the temporary full-set file contains exactly the members of
the subdomain set, lexicographically sorted, one per line, with no
duplicates; it has no blank line unless the empty string is a member of the
set, which happens exactly when a tool output file contained a
whitespace-only line. -/
theorem c3_temp_file_sorted (s : Finset String) :
    List.Sorted (· ≤ ·) (fullSetLines s) ∧
    (fullSetLines s).Nodup ∧
    (∀ x, x ∈ fullSetLines s ↔ x ∈ s) ∧
    ("" ∉ s → "" ∉ fullSetLines s) := by
  refine ⟨Finset.sort_sorted _ _, Finset.sort_nodup _ _,
    fun x => Finset.mem_sort _, fun h hx => h ?_⟩
  rw [fullSetLines, Finset.mem_sort] at hx
  exact hx

/-- Witness for the amended C3: a set without the empty string yields no
blank line. -/
theorem c3_temp_file_sorted_witness :
    "" ∉ fullSetLines ({"b.example.com"} : Finset String) :=
  (c3_temp_file_sorted {"b.example.com"}).2.2.2 (by decide)

/-- C4: the hosts the recursive-expansion loop invokes the tools against
are exactly the members of the pre-expansion set minus the literal target
domain.  The invoked list is computed from the pre-expansion snapshot alone
(the first conjunct's right-hand side does not mention the environment), so
hostnames first discovered during expansion are never themselves expanded:
expansion is exactly one level deep. -/
theorem c4_expansion_targets (target : String) (env : Env)
    (s : Finset String) :
    (expansionRun target env s).2 =
      (s.sort (· ≤ ·)).filter (fun x => decide (x ≠ target)) ∧
    ∀ x, x ∈ (expansionRun target env s).2 ↔ x ∈ s.erase target := by
  refine ⟨expansionRun_snd target env s, fun x => ?_⟩
  rw [expansionRun_snd]
  simp only [List.mem_filter, Finset.mem_sort, Finset.mem_erase,
    decide_eq_true_eq]
  tauto

lemma cleanupFS_lookup_sub (t : String) (f : FS) :
    fsLookup (cleanupFS t f) (subName t) = none := by
  rw [cleanupFS, fsLookup_fsRemove_ne _ _ _ (subName_ne_tempName t).symm,
    fsLookup_fsRemove_ne _ _ _ (subName_ne_amName t).symm,
    fsLookup_fsRemove_self]

lemma cleanupFS_lookup_am (t : String) (f : FS) :
    fsLookup (cleanupFS t f) (amName t) = none := by
  rw [cleanupFS, fsLookup_fsRemove_ne _ _ _ (amName_ne_tempName t).symm,
    fsLookup_fsRemove_self]

lemma cleanupFS_lookup_temp (t : String) (f : FS) :
    fsLookup (cleanupFS t f) (tempName t) = none := by
  rw [cleanupFS, fsLookup_fsRemove_self]

lemma cleanupFS_lookup_other (t : String) (f : FS) (name : String)
    (h1 : name ≠ subName t) (h2 : name ≠ amName t) (h3 : name ≠ tempName t) :
    fsLookup (cleanupFS t f) name = fsLookup f name := by
  rw [cleanupFS, fsLookup_fsRemove_ne _ _ _ h3.symm,
    fsLookup_fsRemove_ne _ _ _ h2.symm, fsLookup_fsRemove_ne _ _ _ h1.symm]

lemma probePhase_fst (target : String) (env : Env) (fs : FS)
    (s : Finset String) :
    (probePhase target env fs s).1 =
      cleanupFS target (probeFS target env fs s) := by
  rw [probePhase]
  split <;> rfl

/-- C5: if the live-host probe passes the success test (exit code zero and
the output file present) the run removes the three intermediate files, the
live-subdomains file persists exactly as the probe step left it, and the
run returns the file's path; if the probe fails the same intermediates are
removed, the run returns no result, and it writes nothing of its own to the
live-subdomains path. -/
theorem c5_probe_cleanup (target : String) (env : Env) (fs : FS)
    (s : Finset String) :
    (probeSuccess target env (probeFS target env fs s) = true →
      (probePhase target env fs s).2 = some (liveName target) ∧
      fsLookup (probePhase target env fs s).1 (subName target) = none ∧
      fsLookup (probePhase target env fs s).1 (amName target) = none ∧
      fsLookup (probePhase target env fs s).1 (tempName target) = none ∧
      fsLookup (probePhase target env fs s).1 (liveName target) =
        fsLookup (probeFS target env fs s) (liveName target) ∧
      (fsLookup (probePhase target env fs s).1 (liveName target)).isSome =
        true) ∧
    (probeSuccess target env (probeFS target env fs s) = false →
      (probePhase target env fs s).2 = none ∧
      fsLookup (probePhase target env fs s).1 (subName target) = none ∧
      fsLookup (probePhase target env fs s).1 (amName target) = none ∧
      fsLookup (probePhase target env fs s).1 (tempName target) = none ∧
      fsLookup (probePhase target env fs s).1 (liveName target) =
        fsLookup (probeFS target env fs s) (liveName target)) := by
  have hlive : fsLookup (probePhase target env fs s).1 (liveName target) =
      fsLookup (probeFS target env fs s) (liveName target) := by
    rw [probePhase_fst]
    exact cleanupFS_lookup_other target _ _ (subName_ne_liveName target).symm
      (amName_ne_liveName target).symm (tempName_ne_liveName target).symm
  constructor
  · intro h
    have hret : (probePhase target env fs s).2 = some (liveName target) := by
      rw [probePhase]
      simp only [h, if_true]
    refine ⟨hret, ?_, ?_, ?_, hlive, ?_⟩
    · rw [probePhase_fst]; exact cleanupFS_lookup_sub target _
    · rw [probePhase_fst]; exact cleanupFS_lookup_am target _
    · rw [probePhase_fst]; exact cleanupFS_lookup_temp target _
    · rw [hlive]
      rw [probeSuccess] at h
      exact (Bool.and_eq_true _ _ |>.mp h).2
  · intro h
    have hret : (probePhase target env fs s).2 = none := by
      rw [probePhase]
      simp only [h, Bool.false_eq_true, if_false]
    refine ⟨hret, ?_, ?_, ?_, hlive⟩
    · rw [probePhase_fst]; exact cleanupFS_lookup_sub target _
    · rw [probePhase_fst]; exact cleanupFS_lookup_am target _
    · rw [probePhase_fst]; exact cleanupFS_lookup_temp target _

def envC5 : Env :=
  { subfinder := ⟨RawExec.ok "" "" 0, some ["a.example.com"]⟩
    amass := ⟨RawExec.ok "" "" 0, some []⟩
    recSubfinder := fun _ => RawExec.ok "" "" 0
    recAmass := fun _ => RawExec.ok "" "" 0
    httpx := RawExec.ok "" "" 0
    httpxWrite := some ["https://a.example.com"] }

/-- Witness for C5, success branch: the probe exits 0 and wrote the live
file, so the run returns its path, the intermediates are gone and the live
file persists. -/
theorem c5_probe_cleanup_witness :
    (probePhase "example.com" envC5 [] {"a.example.com", "example.com"}).2 =
      some (liveName "example.com") ∧
    fsLookup
        (probePhase "example.com" envC5 [] {"a.example.com", "example.com"}).1
        (subName "example.com") = none ∧
    fsLookup
        (probePhase "example.com" envC5 [] {"a.example.com", "example.com"}).1
        (amName "example.com") = none ∧
    fsLookup
        (probePhase "example.com" envC5 [] {"a.example.com", "example.com"}).1
        (tempName "example.com") = none ∧
    fsLookup
        (probePhase "example.com" envC5 [] {"a.example.com", "example.com"}).1
        (liveName "example.com") =
      fsLookup (probeFS "example.com" envC5 [] {"a.example.com", "example.com"})
        (liveName "example.com") ∧
    (fsLookup
        (probePhase "example.com" envC5 [] {"a.example.com", "example.com"}).1
        (liveName "example.com")).isSome = true :=
  (c5_probe_cleanup "example.com" envC5 [] {"a.example.com", "example.com"}).1
    (by decide)

/-- C9: on the probe's failure branch only the three intermediate files are
deleted — every other path, the `D_subdomains.txt` path included, keeps
exactly the content the probe step left there; when the probe writes
nothing, the live path still holds whatever it held before the run, so a
leftover final file from a previous run survives a failed run unchanged;
and a leftover file's mere existence together with a zero exit code from
the probe satisfies the success test even though the probe wrote nothing. -/
theorem c9_failure_frame (target : String) (env : Env) (fs : FS)
    (s : Finset String) :
    (∀ name : String,
      name ≠ subName target → name ≠ amName target → name ≠ tempName target →
      fsLookup (probePhase target env fs s).1 name =
        fsLookup (probeFS target env fs s) name) ∧
    (env.httpxWrite = none →
      fsLookup (probeFS target env fs s) (liveName target) =
        fsLookup fs (liveName target)) ∧
    (env.httpxWrite = none →
      fsLookup (probePhase target env fs s).1 (liveName target) =
        fsLookup fs (liveName target)) ∧
    ((run_command env.httpx).2.2 = 0 → env.httpxWrite = none →
      (fsLookup fs (liveName target)).isSome = true →
      (probePhase target env fs s).2 = some (liveName target)) := by
  have hframe : ∀ name : String,
      name ≠ subName target → name ≠ amName target → name ≠ tempName target →
      fsLookup (probePhase target env fs s).1 name =
        fsLookup (probeFS target env fs s) name := by
    intro name h1 h2 h3
    rw [probePhase_fst]
    exact cleanupFS_lookup_other target _ name h1 h2 h3
  have hpre : env.httpxWrite = none →
      fsLookup (probeFS target env fs s) (liveName target) =
        fsLookup fs (liveName target) := by
    intro hw
    rw [probeFS, hw, applyWrite]
    exact fsLookup_fsWrite_ne fs _ _ _ (tempName_ne_liveName target)
  refine ⟨hframe, hpre, ?_, ?_⟩
  · intro hw
    rw [hframe (liveName target) (subName_ne_liveName target).symm
      (amName_ne_liveName target).symm (tempName_ne_liveName target).symm]
    exact hpre hw
  · intro hrc hw hex
    have hsucc : probeSuccess target env (probeFS target env fs s) = true := by
      rw [probeSuccess, hpre hw, hex, hrc]
      simp
    rw [probePhase]
    simp only [hsucc, if_true]

def envC9 : Env :=
  { subfinder := ⟨RawExec.ok "" "" 0, some ["a.example.com"]⟩
    amass := ⟨RawExec.ok "" "" 0, some []⟩
    recSubfinder := fun _ => RawExec.ok "" "" 0
    recAmass := fun _ => RawExec.ok "" "" 0
    httpx := RawExec.ok "" "" 0
    httpxWrite := none }

/-- Witness for C9: a live-subdomains file left over from a previous run,
combined with a zero probe exit code and a probe that writes nothing,
satisfies the success test; the leftover content also survives unchanged. -/
theorem c9_failure_frame_witness :
    fsLookup
        (probePhase "example.com" envC9
          [(liveName "example.com", ["https://stale.example.com"])]
          {"example.com"}).1 (liveName "example.com") =
      fsLookup [(liveName "example.com", ["https://stale.example.com"])]
        (liveName "example.com") ∧
    (probePhase "example.com" envC9
        [(liveName "example.com", ["https://stale.example.com"])]
        {"example.com"}).2 = some (liveName "example.com") :=
  ⟨(c9_failure_frame "example.com" envC9
      [(liveName "example.com", ["https://stale.example.com"])]
      {"example.com"}).2.2.1 rfl,
    (c9_failure_frame "example.com" envC9
      [(liveName "example.com", ["https://stale.example.com"])]
      {"example.com"}).2.2.2 (by decide) rfl (by decide)⟩

/-- C6: `run_command` is a total function into result triples.  A normal
completion whose stderr lacks the "not found" marker is returned verbatim —
in particular a non-zero exit code is returned, not raised; stderr and exit
code are returned in every case; a `FileNotFoundError` at launch and any
other exception are caught and converted into returned failure triples. -/
theorem c6_run_command_total :
    (∀ out err rc, hasNotFound err = false →
      run_command (RawExec.ok out err rc) = (some out, err, rc)) ∧
    (∀ out err rc, (run_command (RawExec.ok out err rc)).2 = (err, rc)) ∧
    (∀ msg, run_command (RawExec.otherError msg) = (none, msg, 1)) ∧
    run_command RawExec.fileNotFound = (none, "FileNotFoundError", 127) := by
  refine ⟨?_, ?_, fun msg => rfl, rfl⟩
  · intro out err rc h
    rw [run_command, if_neg]
    intro hc
    rw [h] at hc
    exact absurd hc.2 (by simp)
  · intro out err rc
    rw [run_command]
    split <;> rfl

/-- Witness for C6: a command that exits 7 has its triple returned. -/
theorem c6_run_command_total_witness :
    run_command (RawExec.ok "hit" "some diagnostics" 7) =
      (some "hit", "some diagnostics", 7) :=
  c6_run_command_total.1 "hit" "some diagnostics" 7 (by decide)

/-- C7: when the resolved input file for the Screenshot Step does not
exist, the step reports the missing file and returns without invoking the
screenshot tool, and the menu loop carries on from the same state with the
remaining inputs. -/
theorem c7_screenshot_missing_input (target userInput : String) (fs : FS)
    (scrEnv : RawExec) (env : Env) (rest : List String)
    (h : (fsLookup fs (resolvedInput target userInput)).isSome = false) :
    screenshot_subdomains target userInput fs scrEnv =
      ScreenshotResult.missingInput (resolvedInput target userInput) ∧
    menuLoop target env scrEnv ("2" :: userInput :: rest) fs =
      (Event.ranScreenshot
          (ScreenshotResult.missingInput (resolvedInput target userInput)) ::
        (menuLoop target env scrEnv rest fs).1,
        (menuLoop target env scrEnv rest fs).2) := by
  have hs : screenshot_subdomains target userInput fs scrEnv =
      ScreenshotResult.missingInput (resolvedInput target userInput) := by
    rw [screenshot_subdomains]
    simp only [h, Bool.false_eq_true, if_false]
  have h2 : pyStrip "2" = "2" := by decide
  refine ⟨hs, ?_⟩
  rw [menuLoop]
  simp only [h2, hs]
  rw [if_neg (by decide : ¬("2" : String) = "1")]
  simp

def envC7 : Env :=
  { subfinder := ⟨RawExec.ok "" "" 0, some []⟩
    amass := ⟨RawExec.ok "" "" 0, some []⟩
    recSubfinder := fun _ => RawExec.ok "" "" 0
    recAmass := fun _ => RawExec.ok "" "" 0
    httpx := RawExec.ok "" "" 0
    httpxWrite := none }

/-- Witness for C7: an empty path answer resolves to the default
`example.com_subdomains.txt`, which does not exist in an empty file system,
so the step stops without running the tool and the loop continues. -/
theorem c7_screenshot_missing_input_witness :
    screenshot_subdomains "example.com" "" [] (RawExec.ok "" "" 0) =
      ScreenshotResult.missingInput (resolvedInput "example.com" "") ∧
    menuLoop "example.com" envC7 (RawExec.ok "" "" 0) ("2" :: "" :: ["3"]) [] =
      (Event.ranScreenshot
          (ScreenshotResult.missingInput (resolvedInput "example.com" "")) ::
        (menuLoop "example.com" envC7 (RawExec.ok "" "" 0) ["3"] []).1,
        (menuLoop "example.com" envC7 (RawExec.ok "" "" 0) ["3"] []).2) :=
  c7_screenshot_missing_input "example.com" "" [] (RawExec.ok "" "" 0)
    envC7 ["3"] (by decide)

/-- C8: an empty (stripped) answer to the one-time target-domain prompt
makes the program exit at once — no menu iteration happens and the state is
untouched; inside the menu loop, a choice other than `1`, `2`, `3` is
recorded as invalid and the loop continues on the remaining inputs from the
unchanged state, executing no operation. -/
theorem c8_menu_driver (env : Env) (scrEnv : RawExec) (fs : FS) :
    (∀ d rest, pyStrip d = "" →
      mainProg (d :: rest) env scrEnv fs = ([], fs)) ∧
    (∀ target c rest,
      pyStrip c ≠ "1" → pyStrip c ≠ "2" → pyStrip c ≠ "3" →
      menuLoop target env scrEnv (c :: rest) fs =
        (Event.invalid (pyStrip c) :: (menuLoop target env scrEnv rest fs).1,
          (menuLoop target env scrEnv rest fs).2)) := by
  constructor
  · intro d rest h
    rw [mainProg, if_pos h]
  · intro target c rest h1 h2 h3
    rw [menuLoop.eq_def]
    simp only [h1, h2, h3, if_false]

def envC8 : Env :=
  { subfinder := ⟨RawExec.ok "" "" 0, some []⟩
    amass := ⟨RawExec.ok "" "" 0, some []⟩
    recSubfinder := fun _ => RawExec.ok "" "" 0
    recAmass := fun _ => RawExec.ok "" "" 0
    httpx := RawExec.ok "" "" 0
    httpxWrite := none }

/-- Witness for C8: a whitespace-only domain answer exits immediately, and
the menu choice `9` is reported invalid with the loop untouched. -/
theorem c8_menu_driver_witness :
    mainProg [" "] envC8 (RawExec.ok "" "" 0) [] = ([], []) ∧
    menuLoop "example.com" envC8 (RawExec.ok "" "" 0) ["9"] [] =
      (Event.invalid (pyStrip "9") ::
        (menuLoop "example.com" envC8 (RawExec.ok "" "" 0) [] []).1,
        (menuLoop "example.com" envC8 (RawExec.ok "" "" 0) [] []).2) :=
  ⟨(c8_menu_driver envC8 (RawExec.ok "" "" 0) []).1 " " [] (by decide),
    (c8_menu_driver envC8 (RawExec.ok "" "" 0) []).2 "example.com" "9" []
      (by decide) (by decide) (by decide)⟩

lemma toolRecLines_of_failed (raw : RawExec)
    (h : recSucceeded raw = false) : toolRecLines raw = ∅ := by
  rw [toolRecLines]
  rw [recSucceeded] at h
  rcases hr : run_command raw with ⟨o, e, rc⟩
  rw [hr] at h
  cases o with
  | none => rfl
  | some out =>
    simp only [decide_eq_false_iff_not] at h
    simp only [if_neg h]

/-- C10: during recursive expansion a failing tool invocation — non-zero
exit code, the binary-not-found outcome, or empty stdout — contributes
nothing to the newly-found set, and the loop still runs to completion over
every non-target member of the snapshot: no failure aborts the run. -/
theorem c10_expansion_no_abort (target : String) (env : Env)
    (s : Finset String) (sub : String)
    (h1 : recSucceeded (env.recSubfinder sub) = false)
    (h2 : recSucceeded (env.recAmass sub) = false) :
    recContribution env sub = ∅ ∧
    (expansionRun target env s).2 =
      (s.sort (· ≤ ·)).filter (fun x => decide (x ≠ target)) := by
  refine ⟨?_, expansionRun_snd target env s⟩
  rw [recContribution, toolRecLines_of_failed _ h1,
    toolRecLines_of_failed _ h2]
  simp

def envC10 : Env :=
  { subfinder := ⟨RawExec.ok "" "" 0, some []⟩
    amass := ⟨RawExec.ok "" "" 0, some []⟩
    recSubfinder := fun _ => RawExec.fileNotFound
    recAmass := fun _ => RawExec.ok "" "" 0
    httpx := RawExec.ok "" "" 0
    httpxWrite := none }

/-- Witness for C10: for the target `a.example.com` the recursive subfinder
launch fails with the binary-not-found outcome and amass returns exit code
zero with empty stdout; neither contributes and the loop's invocation list
is unaffected. -/
theorem c10_expansion_no_abort_witness :
    recContribution envC10 "a.example.com" = ∅ ∧
    (expansionRun "example.com" envC10
        {"a.example.com", "example.com"}).2 =
      (({"a.example.com", "example.com"} : Finset String).sort
          (· ≤ ·)).filter (fun x => decide (x ≠ "example.com")) :=
  c10_expansion_no_abort "example.com" envC10
    {"a.example.com", "example.com"} "a.example.com" (by decide) (by decide)
